import Mathlib

/-
  Verification development for the Minesweeper AI engine
  (classes `Sentence` and `MinesweeperAI` of minesweeper.py).

  Cells are integer pairs, exactly like the Python `(i, j)` tuples.
  Python sets of cells become `Finset Cell`; the mutable `Sentence`
  objects and the `MinesweeperAI` state become immutable records that
  every operation transforms; iteration over a Python set (whose order
  is unspecified) is rendered as iteration over the set sorted in a
  fixed total order.
-/

namespace MS

/-- A board cell: a pair of integers, as the Python `(i, j)` tuples. -/
abbrev Cell := ℤ × ℤ

/-- Total order on cells used to enumerate a Python set in a definite order. -/
def cellLE (p q : Cell) : Prop :=
  p.1 < q.1 ∨ (p.1 = q.1 ∧ p.2 ≤ q.2)

instance : DecidableRel cellLE := fun p q =>
  inferInstanceAs (Decidable (p.1 < q.1 ∨ (p.1 = q.1 ∧ p.2 ≤ q.2)))

instance : IsTrans Cell cellLE := by
  constructor; intro a b c hab hbc; unfold cellLE at *; omega

instance : IsAntisymm Cell cellLE := by
  constructor; intro a b hab hba
  unfold cellLE at *
  have h1 : a.1 = b.1 := by omega
  have h2 : a.2 = b.2 := by omega
  exact Prod.ext h1 h2

instance : IsTotal Cell cellLE := by
  constructor; intro a b; unfold cellLE; omega

/-- `class Sentence`: a set of board cells together with a count of how many
of those cells are mines.  `__eq__` compares cells and count, which is the
derived structural equality. -/
structure Sentence where
  cells : Finset Cell
  count : ℤ
deriving DecidableEq

/-- `Sentence.known_mines`: all cells of the sentence if `len(cells) == count`,
else the empty set. -/
def Sentence.known_mines (s : Sentence) : Finset Cell :=
  if (s.cells.card : ℤ) = s.count then s.cells else ∅

/-- `Sentence.known_safes`: all cells of the sentence if `count == 0`,
else the empty set. -/
def Sentence.known_safes (s : Sentence) : Finset Cell :=
  if s.count = 0 then s.cells else ∅

/-- `Sentence.mark_mine`: if the cell is in the sentence, remove it and
decrement the count. -/
def Sentence.mark_mine (s : Sentence) (c : Cell) : Sentence :=
  if c ∈ s.cells then ⟨s.cells.erase c, s.count - 1⟩ else s

/-- `Sentence.mark_safe`: the source removes the cell only when it is a member
AND the sentence's count is nonzero (`if cell in self.cells and self.count != 0`). -/
def Sentence.mark_safe (s : Sentence) (c : Cell) : Sentence :=
  if c ∈ s.cells ∧ s.count ≠ 0 then ⟨s.cells.erase c, s.count⟩ else s

/-- The state of `class MinesweeperAI`: board dimensions, the moves made,
the cells known to be mines, the cells known to be safe, and the list of
sentences (the knowledge base). -/
structure AI where
  height : ℤ
  width : ℤ
  moves_made : Finset Cell
  mines : Finset Cell
  safes : Finset Cell
  knowledge : List Sentence
deriving DecidableEq

/-- `MinesweeperAI.mark_mine`: add the cell to `self.mines` and call
`mark_mine` on every sentence of the knowledge base. -/
def AI.mark_mine (a : AI) (c : Cell) : AI :=
  { a with
    mines := insert c a.mines
    knowledge := a.knowledge.map (fun s => s.mark_mine c) }

/-- `MinesweeperAI.mark_safe`: add the cell to `self.safes` and call
`mark_safe` on every sentence of the knowledge base. -/
def AI.mark_safe (a : AI) (c : Cell) : AI :=
  { a with
    safes := insert c a.safes
    knowledge := a.knowledge.map (fun s => s.mark_safe c) }

/-- `MinesweeperAI.get_unknown_neighbors`: the source iterates
`i in range(cell[0]-1, cell[0]+2)` skipping `i < 0 or i > self.width - 1`,
and `j in range(cell[1]-1, cell[1]+2)` skipping `j < 0 or j > self.height - 1`,
then skips the cell itself and cells in `self.safes` or `self.moves_made`.
Note that the first coordinate is clipped by `width` and the second by
`height`, exactly as in the source. -/
def AI.get_unknown_neighbors (a : AI) (cell : Cell) : Finset Cell :=
  ((({cell.1 - 1, cell.1, cell.1 + 1} : Finset ℤ).filter
      (fun i => ¬(i < 0 ∨ i > a.width - 1))) ×ˢ
   (({cell.2 - 1, cell.2, cell.2 + 1} : Finset ℤ).filter
      (fun j => ¬(j < 0 ∨ j > a.height - 1)))).filter
    (fun p => ¬(p = cell ∨ p ∈ a.safes ∨ p ∈ a.moves_made))

/-- Steps 1-3 of `MinesweeperAI.add_knowledge`: record the move, mark the
observed cell safe, and, when the set returned by `get_unknown_neighbors`
is non-empty, append the new sentence to the knowledge base. -/
def AI.addObservation (a : AI) (cell : Cell) (count : ℤ) : AI :=
  let a1 : AI := { a with moves_made := insert cell a.moves_made }
  let a2 : AI := a1.mark_safe cell
  if (a2.get_unknown_neighbors cell).card ≠ 0 then
    { a2 with knowledge := a2.knowledge ++ [⟨a2.get_unknown_neighbors cell, count⟩] }
  else a2

/-- Enumerate a set of cells as the list sorted by `cellLE`; this renders
Python's iteration over a set (whose order is unspecified, and on which the
result does not depend because marks of one kind commute) in a definite
order. -/
def sortedCells (S : Finset Cell) : List Cell :=
  Quot.liftOn S.val (fun l => List.insertionSort cellLE l) (fun l1 l2 h =>
    List.eq_of_perm_of_sorted
      (((List.perm_insertionSort cellLE l1).trans h).trans
        (List.perm_insertionSort cellLE l2).symm)
      (List.sorted_insertionSort cellLE l1)
      (List.sorted_insertionSort cellLE l2))

/-- The `for sentence_x in copy_of_knowledge` loop of `add_knowledge`:
iterate over a frozen copy of the knowledge base; for each sentence of the
copy, mark every cell of its (frozen) `known_safes` safe and then every cell
of its (frozen) `known_mines` as a mine, cascading into the live state. -/
def AI.directPhase (a : AI) : AI :=
  a.knowledge.foldl
    (fun st sx =>
      ((sortedCells sx.known_mines).foldl AI.mark_mine
        ((sortedCells sx.known_safes).foldl AI.mark_safe st)))
    a

/-- State of the subset-inference double loop of `add_knowledge`.
`cur` is the current contents of `self.knowledge`; `outerPending` the
elements the outer `for sentence_1 in self.knowledge` loop has yet to visit;
`curIsOrig` records whether `self.knowledge` is still the very list object
the outer loop iterates over (Python's `self.knowledge = list(filter(...))`
rebinds the attribute to a fresh list, after which appends no longer reach
the list being iterated). -/
structure SubsetState where
  cur : List Sentence
  outerPending : List Sentence
  curIsOrig : Bool
deriving DecidableEq

/-- The inner `for sentence_2 in self.knowledge` loop for a fixed
`sentence_1 = s1`, after `self.knowledge` has been rebound by a
`self.knowledge = list(filter(...))`: appends then go to the fresh list and
no longer extend the list object being iterated, so the iteration is plain
structural recursion over the pending elements.  One step: if the two
sentences differ (`not sentence_1.__eq__(sentence_2)`) and `s1.cells` is a
strict subset of `s2.cells`, build the inferred sentence; if a structurally
equal sentence is already in `self.knowledge`, continue; otherwise append
it, and then the `for sentence_3` loop runs — its `or` condition is always
true because `sentence_1 != sentence_2`, and its filter fires at least once
because the freshly appended sentence never has `sentence_2.cells` as a
strict subset of its cells — leaving `self.knowledge` rebound to the
post-append list with every sentence structurally equal to `s2` removed
(`filter(sentence_2.__ne__, ...)`, idempotent under repeated firing). -/
def subsetInnerStable (s1 : Sentence) : List Sentence → SubsetState → SubsetState
  | [], st => st
  | s2 :: rest, st =>
    if s1 = s2 then subsetInnerStable s1 rest st
    else if s1.cells ⊂ s2.cells then
      let inferred : Sentence := ⟨s2.cells \ s1.cells, s2.count - s1.count⟩
      if inferred ∈ st.cur then subsetInnerStable s1 rest st
      else
        subsetInnerStable s1 rest
          ⟨(st.cur ++ [inferred]).filter (fun t => decide (t ≠ s2)),
           if st.curIsOrig then st.outerPending ++ [inferred] else st.outerPending,
           false⟩
    else subsetInnerStable s1 rest st

/-- The inner `for sentence_2 in self.knowledge` loop while the captured
list object is still the one `self.knowledge` refers to: the first append
extends that very object, so the appended sentence is also visited by this
iteration (`rest ++ [inferred]`); when the captured object is the original
outer list, the append extends the outer iteration as well
(`st.curIsOrig`).  Immediately after the append the `for sentence_3` loop
rebinds `self.knowledge` to the filtered fresh list, so the remainder of
the iteration proceeds in the rebound (stable) regime. -/
def subsetInnerLive (s1 : Sentence) : List Sentence → SubsetState → SubsetState
  | [], st => st
  | s2 :: rest, st =>
    if s1 = s2 then subsetInnerLive s1 rest st
    else if s1.cells ⊂ s2.cells then
      let inferred : Sentence := ⟨s2.cells \ s1.cells, s2.count - s1.count⟩
      if inferred ∈ st.cur then subsetInnerLive s1 rest st
      else
        subsetInnerStable s1 (rest ++ [inferred])
          ⟨(st.cur ++ [inferred]).filter (fun t => decide (t ≠ s2)),
           if st.curIsOrig then st.outerPending ++ [inferred] else st.outerPending,
           false⟩
    else subsetInnerLive s1 rest st

/-- The outer `for sentence_1 in self.knowledge` loop of the subset
inference.  Each iteration captures the current `self.knowledge` object —
which at that moment is exactly `st.cur` — and runs the inner loop over it
from its beginning, in the live regime.  The fuel bounds the number of
outer iterations; the original list object grows at most once (the first
append, after which `self.knowledge` is rebound to fresh lists), so the
fuel `length + 1` used by `subsetPhase` always reaches the end of the
iteration. -/
def subsetOuter : ℕ → SubsetState → List Sentence
  | 0, st => st.cur
  | fuel + 1, st =>
    match st.outerPending with
    | [] => st.cur
    | s1 :: rest =>
      subsetOuter fuel (subsetInnerLive s1 st.cur ⟨st.cur, rest, st.curIsOrig⟩)

/-- The whole subset-inference phase, with `extra` units of fuel beyond the
bound `length + 1` that already suffices (the original list object can grow
at most once). -/
def subsetPhaseF (extra : ℕ) (l : List Sentence) : List Sentence :=
  subsetOuter (l.length + 1 + extra) ⟨l, l, true⟩

/-- The subset-inference phase of `add_knowledge`. -/
def subsetPhase (l : List Sentence) : List Sentence :=
  subsetPhaseF 0 l

/-- `MinesweeperAI.add_knowledge`: steps 1-3, then the single direct-inference
pass, then the subset-inference double loop (which touches only
`self.knowledge`). -/
def AI.add_knowledge (a : AI) (cell : Cell) (count : ℤ) : AI :=
  let a3 : AI := a.addObservation cell count
  let a4 : AI := a3.directPhase
  { a4 with knowledge := subsetPhase a4.knowledge }

/-- The candidate set of `MinesweeperAI.make_random_move`: the source loops
`i in range(self.width)`, `j in range(self.height)` and keeps `(i, j)` when
it is in neither `self.moves_made` nor `self.mines`. -/
def AI.possible_cells (a : AI) : Finset Cell :=
  ((Finset.Icc (0 : ℤ) (a.width - 1)) ×ˢ (Finset.Icc (0 : ℤ) (a.height - 1))).filter
    (fun c => c ∉ a.moves_made ∧ c ∉ a.mines)

/-- `MinesweeperAI.make_random_move`: return `None` when the candidate set is
empty, otherwise an element chosen from it (`random.sample`, modelled by the
choice function `pick`). -/
def AI.make_random_move (a : AI) (pick : Finset Cell → Cell) : Option Cell :=
  if a.possible_cells.card = 0 then none else some (pick a.possible_cells)

/-- `Minesweeper.nearby_mines` of the game class (the board collaborator):
counts the mines within one row and column of the cell, not the cell itself,
among positions with `0 <= i < height` and `0 <= j < width`.  The board's
`True` entries are the mine set. -/
def nearby_mines (height width : ℤ) (mines : Finset Cell) (cell : Cell) : ℤ :=
  (((({cell.1 - 1, cell.1, cell.1 + 1} : Finset ℤ) ×ˢ
     ({cell.2 - 1, cell.2, cell.2 + 1} : Finset ℤ)).filter
      (fun p => ¬ p = cell ∧ (0 ≤ p.1 ∧ p.1 < height ∧ 0 ≤ p.2 ∧ p.2 < width) ∧ p ∈ mines)).card : ℤ)


/-! ## Basic lemmas about the mark operations -/

theorem mark_mine_idem_sentence (s : Sentence) (c : Cell) :
    (s.mark_mine c).mark_mine c = s.mark_mine c := by
  by_cases h : c ∈ s.cells <;> simp [Sentence.mark_mine, h]

theorem mark_safe_idem_sentence (s : Sentence) (c : Cell) :
    (s.mark_safe c).mark_safe c = s.mark_safe c := by
  by_cases h : c ∈ s.cells ∧ s.count ≠ 0 <;> simp [Sentence.mark_safe, h]

/-- C9: the knowledge-base mark operations are idempotent: marking the same
cell twice as a mine (or twice as safe) yields exactly the same state —
certainty sets, moves, dimensions and all clauses — as marking it once. -/
theorem c9_mark_idempotent (a : AI) (c : Cell) :
    (a.mark_mine c).mark_mine c = a.mark_mine c ∧
    (a.mark_safe c).mark_safe c = a.mark_safe c := by
  have hfm : (fun s => Sentence.mark_mine s c) ∘ (fun s => Sentence.mark_mine s c)
      = fun s => Sentence.mark_mine s c := by
    funext s; exact mark_mine_idem_sentence s c
  have hfs : (fun s => Sentence.mark_safe s c) ∘ (fun s => Sentence.mark_safe s c)
      = fun s => Sentence.mark_safe s c := by
    funext s; exact mark_safe_idem_sentence s c
  constructor
  · simp only [AI.mark_mine, List.map_map, hfm, Finset.insert_idem]
  · simp only [AI.mark_safe, List.map_map, hfs, Finset.insert_idem]

/-- C10: the knowledge-base mark operations perform no mutual-consistency
check: marking a cell safe and then marking the same cell a mine succeeds
and leaves the cell a member of both certainty sets at once. -/
theorem c10_marks_unchecked (a : AI) (c : Cell) :
    c ∈ ((a.mark_safe c).mark_mine c).safes ∧
    c ∈ ((a.mark_safe c).mark_mine c).mines := by
  simp [AI.mark_safe, AI.mark_mine]

/-- C3 counterexample: for the clause `{(0,0)} = 0` the cell `(0,0)` is a
member of the cell set, yet `mark_safe` does not remove it (the source also
requires `self.count != 0`), so the claim "removes the cell whenever it is
a member, with no further condition on the count" is false. -/
theorem c3_counterexample :
    ((0,0) : Cell) ∈ (Sentence.mk {((0,0) : Cell)} 0).cells ∧
    ((0,0) : Cell) ∈ ((Sentence.mk {((0,0) : Cell)} 0).mark_safe (0,0)).cells := by
  decide

/-- C3 (amended): the clause-level `mark_safe` removes the cell with the
count unchanged whenever the cell is a member AND the clause's count is
nonzero; otherwise — in particular whenever the count is zero — it is a
no-op. -/
theorem c3_mark_safe_behavior (s : Sentence) (c : Cell) :
    (c ∈ s.cells → s.count ≠ 0 →
      (s.mark_safe c).cells = s.cells.erase c ∧ (s.mark_safe c).count = s.count) ∧
    (c ∉ s.cells ∨ s.count = 0 → s.mark_safe c = s) := by
  constructor
  · intro h1 h2
    unfold Sentence.mark_safe
    rw [if_pos ⟨h1, h2⟩]
    exact ⟨rfl, rfl⟩
  · intro h
    unfold Sentence.mark_safe
    rw [if_neg (by tauto : ¬(c ∈ s.cells ∧ s.count ≠ 0))]

/-- Witness for C3: both branches of the amended behaviour at concrete
clauses. -/
theorem c3_mark_safe_behavior_witness :
    ((Sentence.mk {((0,0) : Cell), (1,1)} 1).mark_safe (0,0)).cells
        = ({((0,0) : Cell), (1,1)} : Finset Cell).erase (0,0) ∧
    (Sentence.mk {((0,0) : Cell)} 0).mark_safe (0,0) = Sentence.mk {((0,0) : Cell)} 0 := by
  constructor
  · exact ((c3_mark_safe_behavior (Sentence.mk {((0,0) : Cell), (1,1)} 1) (0,0)).1
      (by decide) (by decide)).1
  · exact (c3_mark_safe_behavior (Sentence.mk {((0,0) : Cell)} 0) (0,0)).2 (Or.inr rfl)

/-- C4: on a board with height 1 and width 2 (board cells `(0,0)` and
`(0,1)` in the game's row/column convention), the reduced neighborhood of
the observed cell `(0,0)` computed by `get_unknown_neighbors` is `{(1,0)}`
— a non-board position — and the actual board neighbor `(0,1)` is absent:
the source clips the first (row) coordinate by `width` and the second
(column) coordinate by `height`, the swap of the bounds the claim states. -/
theorem c4_neighborhood_swapped_bounds :
    AI.get_unknown_neighbors (AI.mk 1 2 ∅ ∅ ∅ []) (0,0) = {((1,0) : Cell)} ∧
    ((0,1) : Cell) ∉ AI.get_unknown_neighbors (AI.mk 1 2 ∅ ∅ ∅ []) (0,0) := by
  decide

/-- C5: on the same height-1, width-2 board the candidate set of
`make_random_move` is `{(0,0), (1,0)}`: it contains the non-board position
`(1,0)` (which a choice function may indeed return) and misses the genuine
board cell `(0,1)`, so the candidate set is not
`{all board cells} - movesMade - knownMines`. -/
theorem c5_random_move_swapped_candidates :
    AI.possible_cells (AI.mk 1 2 ∅ ∅ ∅ []) = {((0,0) : Cell), (1,0)} ∧
    ((0,1) : Cell) ∉ AI.possible_cells (AI.mk 1 2 ∅ ∅ ∅ []) ∧
    AI.make_random_move (AI.mk 1 2 ∅ ∅ ∅ []) (fun _ => ((1,0) : Cell))
        = some ((1,0) : Cell) := by
  decide

/-- C2: a reachable violation of the invariant "no known cell appears in any
live clause".  On a 3-by-3 board whose mines are `(0,1)`, `(1,0)`, `(1,1)`
(the reported counts match the game's `nearby_mines` and both observed
cells are not mines), after `observe((0,0), 3)` and then `observe((0,2), 2)`
the cell `(0,1)` is in `self.mines` and simultaneously a member of a live
clause's cell set: `get_unknown_neighbors` never excludes known mines from
a new clause. -/
theorem c2_known_cells_in_clause :
    (nearby_mines 3 3 {((0,1) : Cell), (1,0), (1,1)} (0,0) = 3 ∧
     nearby_mines 3 3 {((0,1) : Cell), (1,0), (1,1)} (0,2) = 2 ∧
     ((0,0) : Cell) ∉ ({((0,1) : Cell), (1,0), (1,1)} : Finset Cell) ∧
     ((0,2) : Cell) ∉ ({((0,1) : Cell), (1,0), (1,1)} : Finset Cell)) ∧
    (((0,1) : Cell) ∈ (((AI.mk 3 3 ∅ ∅ ∅ []).add_knowledge (0,0) 3).add_knowledge (0,2) 2).mines ∧
     ∃ s ∈ (((AI.mk 3 3 ∅ ∅ ∅ []).add_knowledge (0,0) 3).add_knowledge (0,2) 2).knowledge,
       ((0,1) : Cell) ∈ s.cells) := by
  decide

/-- C7: a reachable violation of the disjointness of the certainty sets on a
board of height 3 and width 2 with a single mine at `(2,1)`.  The three
observations are consistent with that real board (counts equal the game's
`nearby_mines` and the observed cells are not mines), yet afterwards the
cell `(1,1)` lies in `self.mines` and in `self.safes` at once — the
swapped width/height clipping of `get_unknown_neighbors` lets the AI build
false clauses on a non-square board, and the marks are never cross-checked. -/
theorem c7_mines_safes_overlap :
    (nearby_mines 3 2 {((2,1) : Cell)} (2,0) = 1 ∧
     nearby_mines 3 2 {((2,1) : Cell)} (1,0) = 1 ∧
     nearby_mines 3 2 {((2,1) : Cell)} (0,0) = 0 ∧
     ((2,0) : Cell) ∉ ({((2,1) : Cell)} : Finset Cell) ∧
     ((1,0) : Cell) ∉ ({((2,1) : Cell)} : Finset Cell) ∧
     ((0,0) : Cell) ∉ ({((2,1) : Cell)} : Finset Cell)) ∧
    (((1,1) : Cell) ∈
        (((((AI.mk 3 2 ∅ ∅ ∅ []).add_knowledge (2,0) 1).add_knowledge (1,0) 1).add_knowledge
          (0,0) 0).mines) ∧
     ((1,1) : Cell) ∈
        (((((AI.mk 3 2 ∅ ∅ ∅ []).add_knowledge (2,0) 1).add_knowledge (1,0) 1).add_knowledge
          (0,0) 0).safes)) := by
  decide

/-! ## Termination of the subset-inference loop (C8) -/

theorem sortedCells_empty : sortedCells ∅ = [] := rfl

theorem subsetOuter_succ (fuel : ℕ) (cur : List Sentence) (s1 : Sentence)
    (rest : List Sentence) (b : Bool) :
    subsetOuter (fuel + 1) ⟨cur, s1 :: rest, b⟩ =
      subsetOuter fuel (subsetInnerLive s1 cur ⟨cur, rest, b⟩) := rfl

/-- The inner loop, in the stable regime, never increases the measure
`|outerPending| + (1 if the original list can still grow else 0)`. -/
theorem subsetInnerStable_bound (s1 : Sentence) (p : List Sentence) :
    ∀ st : SubsetState,
      (subsetInnerStable s1 p st).outerPending.length +
          (if (subsetInnerStable s1 p st).curIsOrig = true then 1 else 0) ≤
        st.outerPending.length + (if st.curIsOrig = true then 1 else 0) := by
  induction p with
  | nil => intro st; simp [subsetInnerStable]
  | cons s2 rest ih =>
    intro st
    simp only [subsetInnerStable]
    by_cases h1 : s1 = s2
    · rw [if_pos h1]; exact ih st
    · rw [if_neg h1]
      by_cases h2 : s1.cells ⊂ s2.cells
      · rw [if_pos h2]
        by_cases h3 : (⟨s2.cells \ s1.cells, s2.count - s1.count⟩ : Sentence) ∈ st.cur
        · rw [if_pos h3]; exact ih st
        · rw [if_neg h3]
          refine le_trans (ih _) ?_
          cases horig : st.curIsOrig <;> simp [horig]
      · rw [if_neg h2]; exact ih st

/-- The inner loop, in the live regime, never increases the same measure. -/
theorem subsetInnerLive_bound (s1 : Sentence) (p : List Sentence) :
    ∀ st : SubsetState,
      (subsetInnerLive s1 p st).outerPending.length +
          (if (subsetInnerLive s1 p st).curIsOrig = true then 1 else 0) ≤
        st.outerPending.length + (if st.curIsOrig = true then 1 else 0) := by
  induction p with
  | nil => intro st; simp [subsetInnerLive]
  | cons s2 rest ih =>
    intro st
    simp only [subsetInnerLive]
    by_cases h1 : s1 = s2
    · rw [if_pos h1]; exact ih st
    · rw [if_neg h1]
      by_cases h2 : s1.cells ⊂ s2.cells
      · rw [if_pos h2]
        by_cases h3 : (⟨s2.cells \ s1.cells, s2.count - s1.count⟩ : Sentence) ∈ st.cur
        · rw [if_pos h3]; exact ih st
        · rw [if_neg h3]
          refine le_trans (subsetInnerStable_bound s1 _ _) ?_
          cases horig : st.curIsOrig <;> simp [horig]
      · rw [if_neg h2]; exact ih st

/-- The outer loop stabilizes: any two fuels at least the measure of the
state produce the same result, so the loop reaches the end of its iteration
within `|outerPending| + 1` passes. -/
theorem subsetOuter_fuel : ∀ (n m : ℕ) (st : SubsetState),
    st.outerPending.length + (if st.curIsOrig = true then 1 else 0) ≤ n →
    st.outerPending.length + (if st.curIsOrig = true then 1 else 0) ≤ m →
    subsetOuter n st = subsetOuter m st := by
  intro n
  induction n with
  | zero =>
    intro m st h1 _
    obtain ⟨cur, pending, orig⟩ := st
    cases pending with
    | nil => cases m <;> rfl
    | cons s r => cases orig <;> simp at h1
  | succ n ih =>
    intro m st h1 h2
    obtain ⟨cur, pending, orig⟩ := st
    cases pending with
    | nil => cases m <;> rfl
    | cons s1 rest =>
      cases m with
      | zero => cases orig <;> simp at h2
      | succ m' =>
        rw [subsetOuter_succ, subsetOuter_succ]
        apply ih m'
        · refine le_trans (subsetInnerLive_bound s1 cur ⟨cur, rest, orig⟩) ?_
          cases orig <;> simp at h1 ⊢ <;> omega
        · refine le_trans (subsetInnerLive_bound s1 cur ⟨cur, rest, orig⟩) ?_
          cases orig <;> simp at h2 ⊢ <;> omega

/-- C8: `observe` always returns: all its phases are structural passes, and
the subset-inference double loop — although it appends to and re-filters
the list it iterates — stabilizes within the structural fuel bound, so any
extra fuel leaves the resulting knowledge base unchanged. -/
theorem c8_observe_terminates (a : AI) (cell : Cell) (count : ℤ) (extra : ℕ) :
    subsetPhaseF extra ((a.addObservation cell count).directPhase.knowledge)
      = (a.add_knowledge cell count).knowledge := by
  have h : ∀ l : List Sentence, subsetPhaseF extra l = subsetPhase l := by
    intro l
    unfold subsetPhase subsetPhaseF
    apply subsetOuter_fuel <;> simp
  rw [h]
  simp [AI.add_knowledge]

/-! ## The single-pass nature of the deduction (C1) and the silent storage
of negative counts (C6) -/

/-- If no sentence of the knowledge base yields a direct inference, the
direct-inference pass leaves the state unchanged. -/
theorem directPhase_id_of_no_inference (a : AI)
    (h : ∀ s ∈ a.knowledge, s.known_safes = ∅ ∧ s.known_mines = ∅) :
    a.directPhase = a := by
  unfold AI.directPhase
  have haux : ∀ (l : List Sentence) (st : AI),
      (∀ s ∈ l, s.known_safes = ∅ ∧ s.known_mines = ∅) →
      l.foldl
        (fun st sx =>
          ((sortedCells sx.known_mines).foldl AI.mark_mine
            ((sortedCells sx.known_safes).foldl AI.mark_safe st)))
        st = st := by
    intro l
    induction l with
    | nil => intro st _; rfl
    | cons s rest ih =>
      intro st hl
      have hs := hl s (by simp)
      simp only [List.foldl_cons, hs.1, hs.2, sortedCells_empty, List.foldl_nil]
      exact ih st (fun t ht => hl t (by simp [ht]))
  exact haux a.knowledge a h

/-- The subset-inference phase on a knowledge base holding exactly
`{A,B,C} = 1` and `{A,B} = 1` (with `A`, `B`, `C` distinct): the pair with
`{A,B} ⊂ {A,B,C}` fires, the inferred sentence `{C} = 0` is appended, and
the superset sentence is filtered out. -/
theorem subsetPhase_one_yields_zero (A B C : Cell)
    (_hAB : A ≠ B) (hAC : A ≠ C) (hBC : B ≠ C) :
    subsetPhase [⟨{A, B, C}, 1⟩, ⟨{A, B}, 1⟩]
      = [⟨{A, B}, 1⟩, ⟨({C} : Finset Cell), 0⟩] := by
  have hCA : C ≠ A := Ne.symm hAC
  have hCB : C ≠ B := Ne.symm hBC
  have hCmem : C ∉ ({A, B} : Finset Cell) := by simp [hCA, hCB]
  have hsub : ({A, B} : Finset Cell) ⊆ {A, B, C} := by
    intro x hx
    simp only [Finset.mem_insert, Finset.mem_singleton] at hx ⊢
    tauto
  have hss : ({A, B} : Finset Cell) ⊂ {A, B, C} := by
    rw [Finset.ssubset_def]
    exact ⟨hsub, fun hcon => hCmem (hcon (by simp))⟩
  have hnss : ¬ ({A, B, C} : Finset Cell) ⊂ {A, B} := by
    intro hcon
    exact hCmem ((Finset.ssubset_def.mp hcon).1 (by simp))
  have hnss2 : ¬ ({A, B} : Finset Cell) ⊂ {C} := by
    intro hcon
    have := (Finset.ssubset_def.mp hcon).1 (by simp : A ∈ ({A, B} : Finset Cell))
    simp only [Finset.mem_singleton] at this
    exact hAC this
  have hnss3 : ¬ ({C} : Finset Cell) ⊂ {A, B} := by
    intro hcon
    exact hCmem ((Finset.ssubset_def.mp hcon).1 (by simp))
  have hdiff : ({A, B, C} : Finset Cell) \ {A, B} = {C} := by
    ext x
    simp only [Finset.mem_sdiff, Finset.mem_insert, Finset.mem_singleton]
    constructor
    · rintro ⟨h1 | h1 | h1, h2⟩ <;> tauto
    · rintro rfl
      exact ⟨by tauto, by tauto⟩
  have hne1 : (⟨{A, B, C}, 1⟩ : Sentence) ≠ ⟨{A, B}, 1⟩ := by
    intro hcon
    apply hCmem
    have hcells : ({A, B, C} : Finset Cell) = {A, B} := congrArg Sentence.cells hcon
    rw [← hcells]; simp
  have hne2 : (⟨{A, B}, 1⟩ : Sentence) ≠ ⟨{A, B, C}, 1⟩ := Ne.symm hne1
  have hne3 : (⟨({C} : Finset Cell), 0⟩ : Sentence) ≠ ⟨{A, B, C}, 1⟩ := by
    simp [Sentence.mk.injEq]
  have hne4 : (⟨({C} : Finset Cell), 0⟩ : Sentence) ≠ ⟨{A, B}, 1⟩ := by
    simp [Sentence.mk.injEq]
  have hne5 : (⟨{A, B}, 1⟩ : Sentence) ≠ ⟨({C} : Finset Cell), 0⟩ := Ne.symm hne4
  have hlen : ∀ x y : Sentence, ([x, y] : List Sentence).length + 1 + 0 = 2 + 1 :=
    fun _ _ => rfl
  unfold subsetPhase subsetPhaseF
  rw [hlen, subsetOuter_succ]
  have e1 : subsetInnerLive (⟨{A, B, C}, 1⟩ : Sentence) [⟨{A, B, C}, 1⟩, ⟨{A, B}, 1⟩]
      ⟨[⟨{A, B, C}, 1⟩, ⟨{A, B}, 1⟩], [⟨{A, B}, 1⟩], true⟩
      = ⟨[⟨{A, B, C}, 1⟩, ⟨{A, B}, 1⟩], [⟨{A, B}, 1⟩], true⟩ := by
    simp [subsetInnerLive, hne1, hnss]
  rw [e1, show (2 : ℕ) = 1 + 1 from rfl, subsetOuter_succ]
  have e2 : subsetInnerLive (⟨{A, B}, 1⟩ : Sentence) [⟨{A, B, C}, 1⟩, ⟨{A, B}, 1⟩]
      ⟨[⟨{A, B, C}, 1⟩, ⟨{A, B}, 1⟩], [], true⟩
      = ⟨[⟨{A, B}, 1⟩, ⟨({C} : Finset Cell), 0⟩], [⟨({C} : Finset Cell), 0⟩], false⟩ := by
    simp [subsetInnerLive, subsetInnerStable, hne2, hss, hdiff, hne3, hne4, hne5, hne1,
      hnss2, List.filter]
  rw [e2, show (1 : ℕ) = 0 + 1 from rfl, subsetOuter_succ]
  have e3 : subsetInnerLive (⟨({C} : Finset Cell), 0⟩ : Sentence)
      [⟨{A, B}, 1⟩, ⟨({C} : Finset Cell), 0⟩]
      ⟨[⟨{A, B}, 1⟩, ⟨({C} : Finset Cell), 0⟩], [], false⟩
      = ⟨[⟨{A, B}, 1⟩, ⟨({C} : Finset Cell), 0⟩], [], false⟩ := by
    simp [subsetInnerLive, hne4, hnss3]
  rw [e3]
  rfl

/-- C1 (amended): when, after the new observation is recorded, the knowledge
base is exactly `[{A,B,C} = 1, {A,B} = 1]` with `A`, `B`, `C` distinct and
`C` not yet known safe, the call does produce the clause `{C} = 0` by
subset inference — but `C` is NOT marked known-safe by the time `observe`
returns: the single direct-inference pass runs before the subset inference
and the deduction is not iterated to a fixed point. -/
theorem c1_subset_single_pass (a : AI) (cell : Cell) (count : ℤ) (A B C : Cell)
    (hAB : A ≠ B) (hAC : A ≠ C) (hBC : B ≠ C)
    (hk : (a.addObservation cell count).knowledge = [⟨{A, B, C}, 1⟩, ⟨{A, B}, 1⟩])
    (hC : C ∉ (a.addObservation cell count).safes) :
    (⟨({C} : Finset Cell), 0⟩ : Sentence) ∈ (a.add_knowledge cell count).knowledge ∧
      C ∉ (a.add_knowledge cell count).safes := by
  have hcard3 : ({A, B, C} : Finset Cell).card = 3 := by
    rw [Finset.card_insert_of_not_mem (by simp [hAB, hAC]),
      Finset.card_insert_of_not_mem (by simp [hBC]), Finset.card_singleton]
  have hcard2 : ({A, B} : Finset Cell).card = 2 := by
    rw [Finset.card_insert_of_not_mem (by simp [hAB]), Finset.card_singleton]
  have hnoinf : ∀ s ∈ (a.addObservation cell count).knowledge,
      s.known_safes = ∅ ∧ s.known_mines = ∅ := by
    rw [hk]
    intro s hs
    simp only [List.mem_cons, List.not_mem_nil, or_false] at hs
    rcases hs with rfl | rfl
    · refine ⟨by simp [Sentence.known_safes], ?_⟩
      simp only [Sentence.known_mines, hcard3]
      norm_num
    · refine ⟨by simp [Sentence.known_safes], ?_⟩
      simp only [Sentence.known_mines, hcard2]
      norm_num
  have hdp : (a.addObservation cell count).directPhase = a.addObservation cell count :=
    directPhase_id_of_no_inference _ hnoinf
  have hknow : (a.add_knowledge cell count).knowledge
      = [⟨{A, B}, 1⟩, ⟨({C} : Finset Cell), 0⟩] := by
    simp only [AI.add_knowledge]
    rw [hdp, hk]
    exact subsetPhase_one_yields_zero A B C hAB hAC hBC
  have hsafes : (a.add_knowledge cell count).safes = (a.addObservation cell count).safes := by
    simp only [AI.add_knowledge]
    rw [hdp]
  refine ⟨?_, ?_⟩
  · rw [hknow]; simp
  · rw [hsafes]; exact hC

/-- Witness for C1's amended theorem at a concrete reachable state. -/
theorem c1_subset_single_pass_witness :
    (⟨({((0,0) : Cell)} : Finset Cell), 0⟩ : Sentence) ∈
      ((AI.mk 10 10 ∅ ∅ {(4,4), (4,5), (4,6), (5,4), (6,4), (6,5)}
        [⟨{(5,6), (6,6), (0,0)}, 1⟩]).add_knowledge (5,5) 1).knowledge ∧
    ((0,0) : Cell) ∉
      ((AI.mk 10 10 ∅ ∅ {(4,4), (4,5), (4,6), (5,4), (6,4), (6,5)}
        [⟨{(5,6), (6,6), (0,0)}, 1⟩]).add_knowledge (5,5) 1).safes :=
  c1_subset_single_pass
    (AI.mk 10 10 ∅ ∅ {(4,4), (4,5), (4,6), (5,4), (6,4), (6,5)} [⟨{(5,6), (6,6), (0,0)}, 1⟩])
    (5,5) 1 (5,6) (6,6) (0,0) (by decide) (by decide) (by decide) (by decide) (by decide)

/-- C1 counterexample: a concrete state where, after the new observation,
the knowledge base contains `{A,B,C} = 1` and `{A,B} = 1` (with
`A = (5,6)`, `B = (6,6)`, `C = (0,0)` distinct), yet when `observe` returns
the cell `C` has not been marked known-safe — refuting the claim that the
deduction iterates to a fixed point within the call and marks `C` safe. -/
theorem c1_counterexample :
    ((⟨{((5,6) : Cell), (6,6), (0,0)}, 1⟩ : Sentence) ∈
        ((AI.mk 10 10 ∅ ∅ {(4,4), (4,5), (4,6), (5,4), (6,4), (6,5)}
          [⟨{(5,6), (6,6), (0,0)}, 1⟩]).addObservation (5,5) 1).knowledge ∧
      (⟨{((5,6) : Cell), (6,6)}, 1⟩ : Sentence) ∈
        ((AI.mk 10 10 ∅ ∅ {(4,4), (4,5), (4,6), (5,4), (6,4), (6,5)}
          [⟨{(5,6), (6,6), (0,0)}, 1⟩]).addObservation (5,5) 1).knowledge) ∧
    (⟨({((0,0) : Cell)} : Finset Cell), 0⟩ : Sentence) ∈
      ((AI.mk 10 10 ∅ ∅ {(4,4), (4,5), (4,6), (5,4), (6,4), (6,5)}
        [⟨{(5,6), (6,6), (0,0)}, 1⟩]).add_knowledge (5,5) 1).knowledge ∧
    ((0,0) : Cell) ∉
      ((AI.mk 10 10 ∅ ∅ {(4,4), (4,5), (4,6), (5,4), (6,4), (6,5)}
        [⟨{(5,6), (6,6), (0,0)}, 1⟩]).add_knowledge (5,5) 1).safes := by
  decide

/-- The subset-inference phase on a knowledge base holding exactly
`{A,B,C,D} = 1` and `{A,B,C} = 2` (cells pairwise distinct): the pair with
`{A,B,C} ⊂ {A,B,C,D}` fires and the derived sentence `{D} = 1 - 2 = -1`,
whose count is negative, is appended with no check whatsoever, while the
superset sentence is filtered out. -/
theorem subsetPhase_negative_count (A B C D : Cell)
    (_hAB : A ≠ B) (_hAC : A ≠ C) (hAD : A ≠ D) (_hBC : B ≠ C) (hBD : B ≠ D)
    (hCD : C ≠ D) :
    subsetPhase [⟨{A, B, C, D}, 1⟩, ⟨{A, B, C}, 2⟩]
      = [⟨{A, B, C}, 2⟩, ⟨({D} : Finset Cell), -1⟩] := by
  have hDA : D ≠ A := Ne.symm hAD
  have hDB : D ≠ B := Ne.symm hBD
  have hDC : D ≠ C := Ne.symm hCD
  have hDmem : D ∉ ({A, B, C} : Finset Cell) := by simp [hDA, hDB, hDC]
  have hsub : ({A, B, C} : Finset Cell) ⊆ {A, B, C, D} := by
    intro x hx
    simp only [Finset.mem_insert, Finset.mem_singleton] at hx ⊢
    tauto
  have hss : ({A, B, C} : Finset Cell) ⊂ {A, B, C, D} := by
    rw [Finset.ssubset_def]
    exact ⟨hsub, fun hcon => hDmem (hcon (by simp))⟩
  have hnss : ¬ ({A, B, C, D} : Finset Cell) ⊂ {A, B, C} := by
    intro hcon
    exact hDmem ((Finset.ssubset_def.mp hcon).1 (by simp))
  have hnss2 : ¬ ({A, B, C} : Finset Cell) ⊂ {D} := by
    intro hcon
    have := (Finset.ssubset_def.mp hcon).1 (by simp : A ∈ ({A, B, C} : Finset Cell))
    simp only [Finset.mem_singleton] at this
    exact hAD this
  have hnss3 : ¬ ({D} : Finset Cell) ⊂ {A, B, C} := by
    intro hcon
    exact hDmem ((Finset.ssubset_def.mp hcon).1 (by simp))
  have hdiff : ({A, B, C, D} : Finset Cell) \ {A, B, C} = {D} := by
    ext x
    simp only [Finset.mem_sdiff, Finset.mem_insert, Finset.mem_singleton]
    constructor
    · rintro ⟨h1 | h1 | h1 | h1, h2⟩ <;> tauto
    · rintro rfl
      exact ⟨by tauto, by tauto⟩
  have harith : (1 : ℤ) - 2 = -1 := by norm_num
  have hne1 : (⟨{A, B, C, D}, 1⟩ : Sentence) ≠ ⟨{A, B, C}, 2⟩ := by
    simp [Sentence.mk.injEq]
  have hne2 : (⟨{A, B, C}, 2⟩ : Sentence) ≠ ⟨{A, B, C, D}, 1⟩ := Ne.symm hne1
  have hne3 : (⟨({D} : Finset Cell), -1⟩ : Sentence) ≠ ⟨{A, B, C, D}, 1⟩ := by
    simp [Sentence.mk.injEq]
  have hne4 : (⟨({D} : Finset Cell), -1⟩ : Sentence) ≠ ⟨{A, B, C}, 2⟩ := by
    simp [Sentence.mk.injEq]
  have hne5 : (⟨{A, B, C}, 2⟩ : Sentence) ≠ ⟨({D} : Finset Cell), -1⟩ := Ne.symm hne4
  have hlen : ∀ x y : Sentence, ([x, y] : List Sentence).length + 1 + 0 = 2 + 1 :=
    fun _ _ => rfl
  unfold subsetPhase subsetPhaseF
  rw [hlen, subsetOuter_succ]
  have e1 : subsetInnerLive (⟨{A, B, C, D}, 1⟩ : Sentence)
      [⟨{A, B, C, D}, 1⟩, ⟨{A, B, C}, 2⟩]
      ⟨[⟨{A, B, C, D}, 1⟩, ⟨{A, B, C}, 2⟩], [⟨{A, B, C}, 2⟩], true⟩
      = ⟨[⟨{A, B, C, D}, 1⟩, ⟨{A, B, C}, 2⟩], [⟨{A, B, C}, 2⟩], true⟩ := by
    simp [subsetInnerLive, hne1, hnss]
  rw [e1, show (2 : ℕ) = 1 + 1 from rfl, subsetOuter_succ]
  have e2 : subsetInnerLive (⟨{A, B, C}, 2⟩ : Sentence)
      [⟨{A, B, C, D}, 1⟩, ⟨{A, B, C}, 2⟩]
      ⟨[⟨{A, B, C, D}, 1⟩, ⟨{A, B, C}, 2⟩], [], true⟩
      = ⟨[⟨{A, B, C}, 2⟩, ⟨({D} : Finset Cell), -1⟩], [⟨({D} : Finset Cell), -1⟩], false⟩ := by
    simp [subsetInnerLive, subsetInnerStable, hne2, hss, hdiff, harith, hne3, hne4, hne5,
      hne1, hnss2, List.filter]
  rw [e2, show (1 : ℕ) = 0 + 1 from rfl, subsetOuter_succ]
  have e3 : subsetInnerLive (⟨({D} : Finset Cell), -1⟩ : Sentence)
      [⟨{A, B, C}, 2⟩, ⟨({D} : Finset Cell), -1⟩]
      ⟨[⟨{A, B, C}, 2⟩, ⟨({D} : Finset Cell), -1⟩], [], false⟩
      = ⟨[⟨{A, B, C}, 2⟩, ⟨({D} : Finset Cell), -1⟩], [], false⟩ := by
    simp [subsetInnerLive, hne4, hnss3]
  rw [e3]
  rfl

/-- C6 (amended): when subset inference derives a clause with a negative
count, no error is raised and nothing is clamped or dropped: the call
returns normally and the negative-count clause is silently stored in the
knowledge base like any other clause. -/
theorem c6_negative_count_stored (a : AI) (cell : Cell) (count : ℤ) (A B C D : Cell)
    (hAB : A ≠ B) (hAC : A ≠ C) (hAD : A ≠ D) (hBC : B ≠ C) (hBD : B ≠ D) (hCD : C ≠ D)
    (hk : (a.addObservation cell count).knowledge
      = [⟨{A, B, C, D}, 1⟩, ⟨{A, B, C}, 2⟩]) :
    (⟨({D} : Finset Cell), -1⟩ : Sentence) ∈ (a.add_knowledge cell count).knowledge := by
  have hcard4 : ({A, B, C, D} : Finset Cell).card = 4 := by
    rw [Finset.card_insert_of_not_mem (by simp [hAB, hAC, hAD]),
      Finset.card_insert_of_not_mem (by simp [hBC, hBD]),
      Finset.card_insert_of_not_mem (by simp [hCD]), Finset.card_singleton]
  have hcard3 : ({A, B, C} : Finset Cell).card = 3 := by
    rw [Finset.card_insert_of_not_mem (by simp [hAB, hAC]),
      Finset.card_insert_of_not_mem (by simp [hBC]), Finset.card_singleton]
  have hnoinf : ∀ s ∈ (a.addObservation cell count).knowledge,
      s.known_safes = ∅ ∧ s.known_mines = ∅ := by
    rw [hk]
    intro s hs
    simp only [List.mem_cons, List.not_mem_nil, or_false] at hs
    rcases hs with rfl | rfl
    · refine ⟨by simp [Sentence.known_safes], ?_⟩
      simp only [Sentence.known_mines, hcard4]
      norm_num
    · refine ⟨by simp [Sentence.known_safes], ?_⟩
      simp only [Sentence.known_mines, hcard3]
      norm_num
  have hdp : (a.addObservation cell count).directPhase = a.addObservation cell count :=
    directPhase_id_of_no_inference _ hnoinf
  have hknow : (a.add_knowledge cell count).knowledge
      = [⟨{A, B, C}, 2⟩, ⟨({D} : Finset Cell), -1⟩] := by
    simp only [AI.add_knowledge]
    rw [hdp, hk]
    exact subsetPhase_negative_count A B C D hAB hAC hAD hBC hBD hCD
  rw [hknow]
  simp

/-- Witness for C6's amended theorem at a concrete reachable state. -/
theorem c6_negative_count_stored_witness :
    (⟨({((0,0) : Cell)} : Finset Cell), -1⟩ : Sentence) ∈
      ((AI.mk 10 10 ∅ ∅ {(4,4), (4,5), (4,6), (5,4), (6,4)}
        [⟨{(5,6), (6,5), (6,6), (0,0)}, 1⟩]).add_knowledge (5,5) 2).knowledge :=
  c6_negative_count_stored
    (AI.mk 10 10 ∅ ∅ {(4,4), (4,5), (4,6), (5,4), (6,4)} [⟨{(5,6), (6,5), (6,6), (0,0)}, 1⟩])
    (5,5) 2 (5,6) (6,5) (6,6) (0,0)
    (by decide) (by decide) (by decide) (by decide) (by decide) (by decide) (by decide)

/-- C6 counterexample: a concrete call of `add_knowledge` in which the
derived clause `{(0,0)} = -1` has a negative count and is silently stored
in the returned knowledge base — no error is surfaced, refuting the claim
that a negative derived count is a reportable/fatal condition rather than
being silently stored. -/
theorem c6_counterexample :
    (⟨({((0,0) : Cell)} : Finset Cell), -1⟩ : Sentence) ∈
      ((AI.mk 10 10 ∅ ∅ {(4,4), (4,5), (4,6), (5,4), (6,4)}
        [⟨{(5,6), (6,5), (6,6), (0,0)}, 1⟩]).add_knowledge (5,5) 2).knowledge ∧
    ((AI.mk 10 10 ∅ ∅ {(4,4), (4,5), (4,6), (5,4), (6,4)}
        [⟨{(5,6), (6,5), (6,6), (0,0)}, 1⟩]).add_knowledge (5,5) 2).knowledge.length = 2 := by
  decide

end MS
